import Mathlib

/-!
# File-transfer protocol: shallow embedding and verification

A shallow embedding of the store (upload) and retrieve (download) exchanges
of the file-transfer system: the two server variants
(`src/server/server_saloni.go` and `src/server/saloni_server.go`) and the
client driver (`put`/`get`).  The framed message channel and the checksum
utility live in the `file-transfer/messages` and `file-transfer/util`
packages, which are not part of the sources; those pieces are modelled from
the specification (each such definition says so in its doc comment).

The filesystem is a finite map from file names to byte contents, and the
byte stream of one direction of a connection is a list of wire items: framed
envelopes interleaved with raw payload bytes.
-/

/-- A file name (a Go `string`), modelled as its character sequence. -/
abbrev FileName := List Char

/-- Raw byte contents of a file or payload. -/
abbrev Bytes := List Nat

/-- The filesystem visible to one endpoint: an association list from names
to contents; `fsInsert` and `fsErase` keep keys unique. -/
abbrev FS := List (FileName × Bytes)

/-- Look a file up by name (`os.Stat` / `os.Open` succeed iff this is `some`). -/
def fsLookup : FS → FileName → Option Bytes
  | [], _ => none
  | (m, c) :: r, n => if m = n then some c else fsLookup r n

/-- `os.Remove`: drop the entry named `n`. -/
def fsErase : FS → FileName → FS
  | [], _ => []
  | (m, c) :: r, n => if m = n then fsErase r n else (m, c) :: fsErase r n

/-- Writing content `c` under name `n` (the exclusive create followed by the
writes through the handle yields exactly this final content). -/
def fsInsert (fs : FS) (n : FileName) (c : Bytes) : FS := (n, c) :: fsErase fs n

/-- `StorageRequest`: declares an upcoming upload of `size` bytes under
`fileName`. -/
structure StorageRequest where
  fileName : FileName
  size : Nat
deriving DecidableEq

/-- `RetrievalRequest`: asks for the file named `fileName`. -/
structure RetrievalRequest where
  fileName : FileName
deriving DecidableEq

/-- The tagged envelope of the message catalog: exactly one variant per
message, plus `empty` (no variant populated) and `other` (a variant the
dispatcher does not recognize). -/
inductive Envelope where
  | storageReq (req : StorageRequest)
  | retrievalReq (req : RetrievalRequest)
  | response (ok : Bool) (message : String)
  | retrievalResponse (ok : Bool) (message : String) (size : Nat)
  | checksum (digest : Bytes)
  | empty
  | other
deriving DecidableEq

/-- One item on the wire as seen through the Framed Channel: either a framed
envelope or one raw payload byte (file payloads are streamed raw, not framed). -/
inductive Tok where
  | env (e : Envelope)
  | byte (b : Nat)
deriving DecidableEq

/-- Modelled from the spec: the digest primitive (`crypto/md5`, the external
collaborator of §6).  The protocol uses only determinism and byte-for-byte
comparison of digests, so it is modelled as a fixed deterministic 16-byte
function of the payload. -/
def md5Digest (data : Bytes) : Bytes :=
  (List.range 16).map (fun i => (data.foldl (fun a b => a * 31 + b + 7) i) % 256)

/-- Modelled from the spec: `util.VerifyChecksum` (package
`file-transfer/util` is not in the sources) compares the two digests
byte-for-byte. -/
def VerifyChecksum (a b : Bytes) : Bool := decide (a = b)

/-- Modelled from the spec: the digest bytes carried by a `ChecksumMessage`
envelope (`wrapper.GetChecksum().Checksum`), nil for other variants. -/
def Envelope.getChecksum : Envelope → Bytes
  | Envelope.checksum d => d
  | _ => []

/-- Modelled from the spec: `MessageHandler.Receive` pops the next framed
envelope; it fails (`none`) at end of stream, or when the next wire item is
not a framed envelope (`MalformedFrame`). -/
def receive : List Tok → Option (Envelope × List Tok)
  | Tok.env e :: r => some (e, r)
  | _ => none

/-- `io.CopyN(dst, src, n)` pulling raw payload bytes off the channel: the
bytes actually transferred, the unread remainder, and whether the full count
arrived.  A short read (the stream ends, or a framed envelope begins, before
`n` raw bytes) reports failure after the partial prefix was already written. -/
def copyN : Nat → List Tok → Bytes × List Tok × Bool
  | 0, input => ([], input, true)
  | n + 1, Tok.byte b :: r =>
      let s := copyN n r
      (b :: s.1, s.2.1, s.2.2)
  | _ + 1, input => ([], input, false)

/-- Modelled from the spec: the `err.Error()` text of a failed exclusive
create (`os.OpenFile` with `O_CREATE|O_EXCL`). -/
def createErrText (n : FileName) : String :=
  "open " ++ n.asString ++ ": file exists"

/-- Modelled from the spec: the `err.Error()` text of a failed `os.Stat`. -/
def statErrText (n : FileName) : String :=
  "stat " ++ n.asString ++ ": no such file or directory"

/-- How one store exchange ended on the server. -/
inductive StoreResult where
  | createFailed
  | truncated
  | recvFailed
  | mismatch
  | ok
deriving DecidableEq

/-- Everything a server store handler run produces: the filesystem after the
exchange, the unread remainder of the incoming stream, the items it sent,
and how it ended. -/
structure StoreOutcome where
  fs : FS
  rest : List Tok
  sends : List Tok
  result : StoreResult
deriving DecidableEq

/-- How one retrieve exchange ended on the server. -/
inductive RetrieveResult where
  | notFound
  | ok
deriving DecidableEq

/-- What a server retrieve handler run produces: the items it sent and how
it ended (it reads nothing and never changes the filesystem). -/
structure RetrieveOutcome where
  sends : List Tok
  result : RetrieveResult
deriving DecidableEq

/-- Go `strings.Split(s, "/")` on the character list. -/
def splitOnSlash : List Char → List (List Char)
  | [] => [[]]
  | c :: rest =>
      match splitOnSlash rest with
      | [] => [[c]]
      | g :: gs => if c = '/' then [] :: g :: gs else (c :: g) :: gs

/-- Go slice indexing `l[len(l)-1]` with default `d` for the (unreachable)
empty slice. -/
def lastElemD : List (List Char) → List Char → List Char
  | [], d => d
  | [x], _ => x
  | _ :: y :: ys, d => lastElemD (y :: ys) d

/-- `splitList[len(splitList)-1]` after `strings.Split(fileName, "/")`: the
final `/`-separated component of a name. -/
def lastComponent (l : List Char) : List Char := lastElemD (splitOnSlash l) l

namespace ServerSaloni

/-- Embeds `handleStorage` of `src/server/server_saloni.go` (lines 15-49):
exclusive create (failure is reported with a negative `Response` and aborts
before any payload byte is read), the "Ready for data" acknowledgement,
`io.CopyN` of `size` payload bytes into the file and the running digest,
then the trailing checksum envelope is received and compared; every failure
after the create removes the file. -/
def handleStorage (fs : FS) (request : StorageRequest) (input : List Tok) : StoreOutcome :=
  match fsLookup fs request.fileName with
  | some _ =>
      ⟨fs, input, [Tok.env (Envelope.response false (createErrText request.fileName))],
        StoreResult.createFailed⟩
  | none =>
      let ack := [Tok.env (Envelope.response true "Ready for data")]
      let s := copyN request.size input
      let fs1 := fsInsert fs request.fileName s.1
      if s.2.2 = false then
        ⟨fsErase fs1 request.fileName, s.2.1, ack, StoreResult.truncated⟩
      else
        match receive s.2.1 with
        | none => ⟨fsErase fs1 request.fileName, s.2.1, ack, StoreResult.recvFailed⟩
        | some (e, rest2) =>
            if VerifyChecksum (md5Digest s.1) e.getChecksum then
              ⟨fs1, rest2,
                ack ++ [Tok.env (Envelope.response true "File stored successfully")],
                StoreResult.ok⟩
            else
              ⟨fsErase fs1 request.fileName, rest2,
                ack ++ [Tok.env (Envelope.response false "Checksum mismatch")],
                StoreResult.mismatch⟩

/-- Embeds `handleRetrieval` of `src/server/server_saloni.go` (lines 51-77):
stat failure answers a negative `RetrievalResponse` with size 0 and aborts;
otherwise the positive response declares the length, the raw bytes are
streamed while hashed, and the trailing checksum envelope follows.  (In the
map model a name that stats also opens, so the separate `os.Open` failure
branch, which sends the same negative response, cannot fire.) -/
def handleRetrieval (fs : FS) (request : RetrievalRequest) : RetrieveOutcome :=
  match fsLookup fs request.fileName with
  | none =>
      ⟨[Tok.env (Envelope.retrievalResponse false (statErrText request.fileName) 0)],
        RetrieveResult.notFound⟩
  | some content =>
      ⟨Tok.env (Envelope.retrievalResponse true "Ready to send" content.length)
          :: content.map Tok.byte ++ [Tok.env (Envelope.checksum (md5Digest content))],
        RetrieveResult.ok⟩

/-- What happened at each turn of the per-connection dispatch loop. -/
inductive Event where
  | storage (r : StoreResult)
  | retrieval (r : RetrieveResult)
  | unexpected
  | closedEof
  | closedMalformed
  | closedEmpty
deriving DecidableEq

/-- Embeds the `handleClient` receive-dispatch loop of
`src/server/server_saloni.go` (lines 79-112), with explicit fuel (the loop
consumes at least one wire item per turn, so `input.length + 1` fuel never
runs out).  A receive failure (end of stream or malformed frame) and the
empty envelope close the connection; storage and retrieval requests are
dispatched and their outcome only logged; every other variant is logged and
the loop continues. -/
def handleClientLoop : Nat → FS → List Tok → FS × List Event
  | 0, fs, _ => (fs, [])
  | fuel + 1, fs, input =>
      match receive input with
      | none =>
          match input with
          | [] => (fs, [Event.closedEof])
          | _ => (fs, [Event.closedMalformed])
      | some (e, rest) =>
          match e with
          | Envelope.storageReq req =>
              let o := handleStorage fs req rest
              let k := handleClientLoop fuel o.fs o.rest
              (k.1, Event.storage o.result :: k.2)
          | Envelope.retrievalReq req =>
              let o := handleRetrieval fs req
              let k := handleClientLoop fuel fs rest
              (k.1, Event.retrieval o.result :: k.2)
          | Envelope.empty => (fs, [Event.closedEmpty])
          | _ =>
              let k := handleClientLoop fuel fs rest
              (k.1, Event.unexpected :: k.2)

/-- The per-connection handler on its whole incoming stream. -/
def handleClient (fs : FS) (input : List Tok) : FS × List Event :=
  handleClientLoop (input.length + 1) fs input

end ServerSaloni

namespace SaloniServer

/-- Embeds `handleStorage` of `src/server/saloni_server.go` (lines 16-54):
identical to `ServerSaloni.handleStorage` except that the request's file
name is first reduced to its final `/`-separated component
(`strings.Split(fileName, "/")`, last element), and that component is the
name used for the create, the writes, every removal and the error text. -/
def handleStorage (fs : FS) (request : StorageRequest) (input : List Tok) : StoreOutcome :=
  let fileName := lastComponent request.fileName
  match fsLookup fs fileName with
  | some _ =>
      ⟨fs, input, [Tok.env (Envelope.response false (createErrText fileName))],
        StoreResult.createFailed⟩
  | none =>
      let ack := [Tok.env (Envelope.response true "Ready for data")]
      let s := copyN request.size input
      let fs1 := fsInsert fs fileName s.1
      if s.2.2 = false then
        ⟨fsErase fs1 fileName, s.2.1, ack, StoreResult.truncated⟩
      else
        match receive s.2.1 with
        | none => ⟨fsErase fs1 fileName, s.2.1, ack, StoreResult.recvFailed⟩
        | some (e, rest2) =>
            if VerifyChecksum (md5Digest s.1) e.getChecksum then
              ⟨fs1, rest2,
                ack ++ [Tok.env (Envelope.response true "File stored successfully")],
                StoreResult.ok⟩
            else
              ⟨fsErase fs1 fileName, rest2,
                ack ++ [Tok.env (Envelope.response false "Checksum mismatch")],
                StoreResult.mismatch⟩

end SaloniServer

namespace Client

/-- Modelled from the spec: `MessageHandler.ReceiveResponse` reads one
envelope and returns the `Response` fields; the callers discard the error,
so any failure (stream end, wrong variant) yields the zero values
`(false, "")`. -/
def receiveResponse : List Tok → Bool × String × List Tok
  | Tok.env (Envelope.response ok m) :: r => (ok, m, r)
  | Tok.env _ :: r => (false, "", r)
  | input => (false, "", input)

/-- Modelled from the spec: `MessageHandler.ReceiveRetrievalResponse`,
analogous to `receiveResponse` with the declared size as third field. -/
def receiveRetrievalResponse : List Tok → Bool × String × Nat × List Tok
  | Tok.env (Envelope.retrievalResponse ok m s) :: r => (ok, m, s, r)
  | Tok.env _ :: r => (false, "", 0, r)
  | input => (false, "", 0, input)

/-- How one client `put` invocation ended. -/
inductive PutResult where
  | statFailed
  | rejected
  | checksumRejected
  | ok
deriving DecidableEq

/-- What a client `put` run produces: how it ended and the wire items it
sent (the local filesystem is never modified by `put`). -/
structure PutOutcome where
  result : PutResult
  sends : List Tok
deriving DecidableEq

/-- Embeds `put` of the client (src/unnamed/part_000, lines 15-47): stat the
local file for its size, send the `StorageRequest`, block for a `Response`
(a rejection aborts before any payload byte is sent), then stream the file's
bytes while hashing, send the trailing checksum envelope, and block for the
final `Response`. -/
def put (cfs : FS) (fileName : FileName) (input : List Tok) : PutOutcome :=
  match fsLookup cfs fileName with
  | none => ⟨PutResult.statFailed, []⟩
  | some content =>
      let req := [Tok.env (Envelope.storageReq ⟨fileName, content.length⟩)]
      let r1 := receiveResponse input
      if r1.1 = false then ⟨PutResult.rejected, req⟩
      else
        let body := content.map Tok.byte
            ++ [Tok.env (Envelope.checksum (md5Digest content))]
        let r2 := receiveResponse r1.2.2
        if r2.1 = false then ⟨PutResult.checksumRejected, req ++ body⟩
        else ⟨PutResult.ok, req ++ body⟩

/-- How one client `get` invocation ended. -/
inductive GetResult where
  | createFailed
  | rejected
  | truncated
  | mismatch
  | ok
deriving DecidableEq

/-- What a client `get` run produces: how it ended, the local filesystem
afterwards, and the wire items it sent. -/
structure GetOutcome where
  result : GetResult
  fs : FS
  sends : List Tok
deriving DecidableEq

/-- Embeds `get` of the client (src/unnamed/part_000, lines 49-82): the
exclusive create of the local destination comes first (before the request is
sent); then the `RetrievalRequest` goes out and the `RetrievalResponse` is
awaited (a rejection aborts, leaving the created file in place); `io.CopyN`
pulls the declared number of raw bytes into the file and the digest (a short
read aborts, leaving the partial file in place); finally the trailing
checksum envelope is compared - on mismatch the local file is removed. -/
def get (cfs : FS) (fileName : FileName) (input : List Tok) : GetOutcome :=
  match fsLookup cfs fileName with
  | some _ => ⟨GetResult.createFailed, cfs, []⟩
  | none =>
      let cfs1 := fsInsert cfs fileName []
      let req := [Tok.env (Envelope.retrievalReq ⟨fileName⟩)]
      let r1 := receiveRetrievalResponse input
      if r1.1 = false then ⟨GetResult.rejected, cfs1, req⟩
      else
        let s := copyN r1.2.2.1 r1.2.2.2
        let cfs2 := fsInsert cfs1 fileName s.1
        if s.2.2 = false then ⟨GetResult.truncated, cfs2, req⟩
        else
          let serverCheck :=
            match receive s.2.1 with
            | some (e, _) => e.getChecksum
            | none => []
          if VerifyChecksum serverCheck (md5Digest s.1) then ⟨GetResult.ok, cfs2, req⟩
          else ⟨GetResult.mismatch, fsErase cfs2 fileName, req⟩

end Client

/-! ## Basic lemmas about the filesystem map and the channel -/

lemma fsLookup_fsErase_self (fs : FS) (n : FileName) :
    fsLookup (fsErase fs n) n = none := by
  induction fs with
  | nil => rfl
  | cons p r ih =>
      obtain ⟨m, c⟩ := p
      by_cases h : m = n
      · simp [fsErase, h, ih]
      · simp [fsErase, fsLookup, h, ih]

lemma fsLookup_fsErase_ne (fs : FS) (n m : FileName) (h : m ≠ n) :
    fsLookup (fsErase fs n) m = fsLookup fs m := by
  induction fs with
  | nil => rfl
  | cons p r ih =>
      obtain ⟨k, c⟩ := p
      by_cases hk : k = n
      · have hnm : ¬ n = m := fun he => h he.symm
        simp [fsErase, fsLookup, hk, hnm, ih]
      · simp [fsErase, fsLookup, hk, ih]

lemma fsLookup_fsInsert_self (fs : FS) (n : FileName) (c : Bytes) :
    fsLookup (fsInsert fs n c) n = some c := by
  simp [fsInsert, fsLookup]

lemma fsLookup_fsInsert_ne (fs : FS) (n m : FileName) (c : Bytes) (h : m ≠ n) :
    fsLookup (fsInsert fs n c) m = fsLookup fs m := by
  have hnm : ¬ n = m := fun he => h he.symm
  simp [fsInsert, fsLookup, hnm, fsLookup_fsErase_ne fs n m h]

lemma copyN_exact (B : Bytes) (rest : List Tok) :
    copyN B.length (B.map Tok.byte ++ rest) = (B, rest, true) := by
  induction B with
  | nil => rfl
  | cons b bs ih => simp [copyN, ih]

lemma copyN_short (size : Nat) (data : Bytes) (h : data.length < size) :
    copyN size (data.map Tok.byte) = (data, [], false) := by
  induction data generalizing size with
  | nil =>
      cases size with
      | zero => omega
      | succ k => rfl
  | cons b bs ih =>
      cases size with
      | zero => omega
      | succ k =>
          have hk : bs.length < k := by simpa using h
          simp [copyN, ih k hk]

lemma VerifyChecksum_self (a : Bytes) : VerifyChecksum a a = true := by
  simp [VerifyChecksum]

lemma VerifyChecksum_ne (a b : Bytes) (h : a ≠ b) : VerifyChecksum a b = false := by
  simp [VerifyChecksum, h]

lemma splitOnSlash_of_no_slash : ∀ (l : List Char), '/' ∉ l → splitOnSlash l = [l]
  | [], _ => rfl
  | c :: r, h => by
      have hc : ¬ c = '/' := fun hc => h (by simp [hc])
      have hr : '/' ∉ r := fun hm => h (List.mem_cons_of_mem _ hm)
      simp [splitOnSlash, splitOnSlash_of_no_slash r hr, hc]

lemma lastComponent_of_no_slash (l : List Char) (h : '/' ∉ l) :
    lastComponent l = l := by
  simp [lastComponent, splitOnSlash_of_no_slash l h, lastElemD]

/-- The saloni_server store handler is the server_saloni store handler run
on the request whose name was reduced to its last `/`-separated component. -/
lemma handleStorage_split_name (fs : FS) (request : StorageRequest) (input : List Tok) :
    SaloniServer.handleStorage fs request input
      = ServerSaloni.handleStorage fs ⟨lastComponent request.fileName, request.size⟩ input := rfl

/-! ## Claim theorems -/

/-- C4: when the exclusive create of the destination fails (the name is
already taken), the server sends `Response{ok:false, message: failure text}`
and aborts the exchange: the filesystem is untouched (no bytes written to
any file) and the incoming stream is untouched (no payload bytes read). -/
theorem store_create_failure_aborts
    (fs : FS) (n : FileName) (size : Nat) (input : List Tok) (c : Bytes)
    (h : fsLookup fs n = some c) :
    ServerSaloni.handleStorage fs ⟨n, size⟩ input
      = ⟨fs, input, [Tok.env (Envelope.response false (createErrText n))],
          StoreResult.createFailed⟩ := by
  simp [ServerSaloni.handleStorage, h]

theorem store_create_failure_aborts_witness :
    fsLookup [((['f'] : FileName), ([7] : Bytes))] ['f'] = some [7]
    ∧ ServerSaloni.handleStorage [(['f'], [7])] ⟨['f'], 3⟩ [Tok.byte 9]
        = ⟨[(['f'], [7])], [Tok.byte 9],
            [Tok.env (Envelope.response false (createErrText ['f']))],
            StoreResult.createFailed⟩ :=
  ⟨by decide, store_create_failure_aborts [(['f'], [7])] ['f'] 3 [Tok.byte 9] [7] (by decide)⟩

/-- C5: a retrieval request for a file that is missing on the server is
answered with `RetrievalResponse{ok:false, message, size:0}` and the
exchange aborts - that one response is the only item sent, so no payload
byte and no checksum envelope is streamed. -/
theorem retrieval_missing_file_aborts (fs : FS) (n : FileName)
    (h : fsLookup fs n = none) :
    ServerSaloni.handleRetrieval fs ⟨n⟩
      = ⟨[Tok.env (Envelope.retrievalResponse false (statErrText n) 0)],
          RetrieveResult.notFound⟩ := by
  simp [ServerSaloni.handleRetrieval, h]

theorem retrieval_missing_file_aborts_witness :
    fsLookup ([] : FS) ['g'] = none
    ∧ ServerSaloni.handleRetrieval [] ⟨['g']⟩
        = ⟨[Tok.env (Envelope.retrievalResponse false (statErrText ['g']) 0)],
            RetrieveResult.notFound⟩ :=
  ⟨by decide, retrieval_missing_file_aborts [] ['g'] (by decide)⟩

/-- C2: when the incoming stream ends before the declared `size` payload
bytes have arrived, the store handler fails with a truncated transfer,
the partially written destination file is deleted before it returns (the
name is absent from the resulting filesystem), and nothing beyond the
"Ready for data" acknowledgement was sent. -/
theorem store_truncated_deletes_file
    (fs : FS) (n : FileName) (size : Nat) (data : Bytes)
    (h : fsLookup fs n = none) (hshort : data.length < size) :
    (ServerSaloni.handleStorage fs ⟨n, size⟩ (data.map Tok.byte)).result
        = StoreResult.truncated
    ∧ fsLookup (ServerSaloni.handleStorage fs ⟨n, size⟩ (data.map Tok.byte)).fs n = none
    ∧ (ServerSaloni.handleStorage fs ⟨n, size⟩ (data.map Tok.byte)).sends
        = [Tok.env (Envelope.response true "Ready for data")] := by
  have hcopy := copyN_short size data hshort
  refine ⟨?_, ?_, ?_⟩ <;>
    simp [ServerSaloni.handleStorage, h, hcopy, fsLookup_fsErase_self]

theorem store_truncated_deletes_file_witness :
    (fsLookup ([] : FS) ['f'] = none ∧ (1 : Nat) < 3)
    ∧ (ServerSaloni.handleStorage [] ⟨['f'], 3⟩ ([9].map Tok.byte)).result
        = StoreResult.truncated
    ∧ fsLookup (ServerSaloni.handleStorage [] ⟨['f'], 3⟩ ([9].map Tok.byte)).fs ['f'] = none
    ∧ (ServerSaloni.handleStorage [] ⟨['f'], 3⟩ ([9].map Tok.byte)).sends
        = [Tok.env (Envelope.response true "Ready for data")] :=
  ⟨⟨by decide, by decide⟩,
    store_truncated_deletes_file [] ['f'] 3 [9] (by decide) (by decide)⟩

/-- C3: when a completed payload transfer is followed by a checksum envelope
whose digest differs from the locally computed digest, the exchange fails
with a checksum mismatch and the just-written file is deleted: the server
store handler removes the stored file and sends
`Response{ok:false, "Checksum mismatch"}` after its acknowledgement, and the
client retrieve driver removes the downloaded local file. -/
theorem checksum_mismatch_deletes_file
    (sfs cfs : FS) (n : FileName) (data c : Bytes) (rest : List Tok) (m : String)
    (hs : fsLookup sfs n = none) (hcl : fsLookup cfs n = none)
    (hne : c ≠ md5Digest data) :
    ((ServerSaloni.handleStorage sfs ⟨n, data.length⟩
          (data.map Tok.byte ++ Tok.env (Envelope.checksum c) :: rest)).result
        = StoreResult.mismatch
      ∧ fsLookup (ServerSaloni.handleStorage sfs ⟨n, data.length⟩
          (data.map Tok.byte ++ Tok.env (Envelope.checksum c) :: rest)).fs n = none
      ∧ (ServerSaloni.handleStorage sfs ⟨n, data.length⟩
          (data.map Tok.byte ++ Tok.env (Envelope.checksum c) :: rest)).sends
        = [Tok.env (Envelope.response true "Ready for data"),
           Tok.env (Envelope.response false "Checksum mismatch")])
    ∧ ((Client.get cfs n (Tok.env (Envelope.retrievalResponse true m data.length)
          :: data.map Tok.byte ++ [Tok.env (Envelope.checksum c)])).result
        = Client.GetResult.mismatch
      ∧ fsLookup (Client.get cfs n (Tok.env (Envelope.retrievalResponse true m data.length)
          :: data.map Tok.byte ++ [Tok.env (Envelope.checksum c)])).fs n = none) := by
  have hcopy := copyN_exact data (Tok.env (Envelope.checksum c) :: rest)
  have hcopy2 := copyN_exact data [Tok.env (Envelope.checksum c)]
  have hver : VerifyChecksum (md5Digest data) c = false :=
    VerifyChecksum_ne _ _ (fun he => hne he.symm)
  have hver2 : VerifyChecksum c (md5Digest data) = false := VerifyChecksum_ne _ _ hne
  refine ⟨⟨?_, ?_, ?_⟩, ?_, ?_⟩ <;>
    simp [ServerSaloni.handleStorage, Client.get, Client.receiveRetrievalResponse,
      hs, hcl, hcopy, hcopy2, receive, Envelope.getChecksum, hver, hver2,
      fsLookup_fsErase_self]

theorem checksum_mismatch_deletes_file_witness :
    (fsLookup ([] : FS) ['f'] = none ∧ ([0] : Bytes) ≠ md5Digest [9, 8])
    ∧ ((ServerSaloni.handleStorage [] ⟨['f'], (2 : Nat)⟩
          ([9, 8].map Tok.byte ++ Tok.env (Envelope.checksum [0]) :: [])).result
        = StoreResult.mismatch
      ∧ fsLookup (ServerSaloni.handleStorage [] ⟨['f'], (2 : Nat)⟩
          ([9, 8].map Tok.byte ++ Tok.env (Envelope.checksum [0]) :: [])).fs ['f'] = none
      ∧ (ServerSaloni.handleStorage [] ⟨['f'], (2 : Nat)⟩
          ([9, 8].map Tok.byte ++ Tok.env (Envelope.checksum [0]) :: [])).sends
        = [Tok.env (Envelope.response true "Ready for data"),
           Tok.env (Envelope.response false "Checksum mismatch")])
    ∧ ((Client.get [] ['f'] (Tok.env (Envelope.retrievalResponse true "Ready to send" 2)
          :: [9, 8].map Tok.byte ++ [Tok.env (Envelope.checksum [0])])).result
        = Client.GetResult.mismatch
      ∧ fsLookup (Client.get [] ['f'] (Tok.env (Envelope.retrievalResponse true "Ready to send" 2)
          :: [9, 8].map Tok.byte ++ [Tok.env (Envelope.checksum [0])])).fs ['f'] = none) :=
  ⟨⟨by decide, by decide⟩,
    checksum_mismatch_deletes_file [] [] ['f'] [9, 8] [0] [] "Ready to send"
      (by decide) (by decide) (by decide)⟩

/-- The two positive acknowledgements an accepting store exchange sends
back to the client (§4.2 steps 2 and 5). -/
def storeAcks : List Tok :=
  [Tok.env (Envelope.response true "Ready for data"),
   Tok.env (Envelope.response true "File stored successfully")]

/-- The wire items that follow an accepted request for payload `B`: the raw
bytes of `B` and the trailing checksum envelope computed over them. -/
def payloadItems (B : Bytes) : List Tok :=
  B.map Tok.byte ++ [Tok.env (Envelope.checksum (md5Digest B))]

/-- C1: the round trip.  A client `put` of a local file with content `B`
(against a server that accepts twice) sends exactly the storage request
followed by the raw bytes of `B` and the checksum of `B`; the server store
handler fed that stream answers exactly the two positive acknowledgements,
accepts, and stores `B` unchanged; the retrieve handler then streams back
the positive response, the raw bytes of `B` and the checksum of `B`; and a
client `get` fed that stream succeeds and ends with the downloaded file
containing exactly `B`.  Both checksum envelopes carry `md5Digest B` and
both receivers' verifications succeed, so sender and receiver digests agree
on each payload. -/
theorem store_retrieve_round_trip
    (B : Bytes) (n : FileName) (cfs sfs dfs : FS)
    (hc : fsLookup cfs n = some B)
    (hs : fsLookup sfs n = none)
    (hd : fsLookup dfs n = none) :
    (Client.put cfs n storeAcks).result = Client.PutResult.ok
    ∧ (Client.put cfs n storeAcks).sends
        = Tok.env (Envelope.storageReq ⟨n, B.length⟩) :: payloadItems B
    ∧ (ServerSaloni.handleStorage sfs ⟨n, B.length⟩ (payloadItems B)).sends = storeAcks
    ∧ (ServerSaloni.handleStorage sfs ⟨n, B.length⟩ (payloadItems B)).result
        = StoreResult.ok
    ∧ fsLookup (ServerSaloni.handleStorage sfs ⟨n, B.length⟩ (payloadItems B)).fs n
        = some B
    ∧ (ServerSaloni.handleRetrieval
          (ServerSaloni.handleStorage sfs ⟨n, B.length⟩ (payloadItems B)).fs ⟨n⟩).sends
        = Tok.env (Envelope.retrievalResponse true "Ready to send" B.length)
            :: payloadItems B
    ∧ (Client.get dfs n (Tok.env (Envelope.retrievalResponse true "Ready to send" B.length)
          :: payloadItems B)).result = Client.GetResult.ok
    ∧ fsLookup (Client.get dfs n
          (Tok.env (Envelope.retrievalResponse true "Ready to send" B.length)
            :: payloadItems B)).fs n = some B := by
  have hcopy := copyN_exact B [Tok.env (Envelope.checksum (md5Digest B))]
  have hstore : ServerSaloni.handleStorage sfs ⟨n, B.length⟩ (payloadItems B)
      = ⟨fsInsert sfs n B, [], storeAcks, StoreResult.ok⟩ := by
    simp [ServerSaloni.handleStorage, hs, payloadItems, hcopy, receive,
      Envelope.getChecksum, VerifyChecksum_self, storeAcks]
  have hput : Client.put cfs n storeAcks
      = ⟨Client.PutResult.ok, Tok.env (Envelope.storageReq ⟨n, B.length⟩) :: payloadItems B⟩ := by
    simp [Client.put, hc, storeAcks, Client.receiveResponse, payloadItems]
  have hret : ServerSaloni.handleRetrieval (fsInsert sfs n B) ⟨n⟩
      = ⟨Tok.env (Envelope.retrievalResponse true "Ready to send" B.length)
            :: payloadItems B, RetrieveResult.ok⟩ := by
    simp [ServerSaloni.handleRetrieval, fsLookup_fsInsert_self, payloadItems]
  have hget : Client.get dfs n
        (Tok.env (Envelope.retrievalResponse true "Ready to send" B.length) :: payloadItems B)
      = ⟨Client.GetResult.ok, fsInsert (fsInsert dfs n []) n B,
          [Tok.env (Envelope.retrievalReq ⟨n⟩)]⟩ := by
    simp [Client.get, hd, Client.receiveRetrievalResponse, payloadItems, hcopy,
      receive, Envelope.getChecksum, VerifyChecksum_self]
  refine ⟨?_, ?_, ?_, ?_, ?_, ?_, ?_, ?_⟩ <;>
    simp [hput, hstore, hret, hget, fsLookup_fsInsert_self]

theorem store_retrieve_round_trip_witness :
    (fsLookup [((['a', '.', 't', 'x', 't'] : FileName), ([104, 101, 108, 108, 111] : Bytes))]
        ['a', '.', 't', 'x', 't'] = some [104, 101, 108, 108, 111]
      ∧ fsLookup ([] : FS) ['a', '.', 't', 'x', 't'] = none)
    ∧ (Client.put [(['a', '.', 't', 'x', 't'], [104, 101, 108, 108, 111])]
        ['a', '.', 't', 'x', 't'] storeAcks).result = Client.PutResult.ok
    ∧ (Client.get [] ['a', '.', 't', 'x', 't']
        (Tok.env (Envelope.retrievalResponse true "Ready to send"
            ([104, 101, 108, 108, 111] : Bytes).length)
          :: payloadItems [104, 101, 108, 108, 111])).result = Client.GetResult.ok :=
  ⟨⟨by decide, by decide⟩,
    (store_retrieve_round_trip [104, 101, 108, 108, 111] ['a', '.', 't', 'x', 't']
      [(['a', '.', 't', 'x', 't'], [104, 101, 108, 108, 111])] [] []
      (by decide) (by decide) (by decide)).1,
    (store_retrieve_round_trip [104, 101, 108, 108, 111] ['a', '.', 't', 'x', 't']
      [(['a', '.', 't', 'x', 't'], [104, 101, 108, 108, 111])] [] []
      (by decide) (by decide) (by decide)).2.2.2.2.2.2.1⟩

/-- C6 counterexample: against the claim that the client's exclusive create
does not occur before the `RetrievalResponse` is known, a retrieve of a file
the server rejects (`ok:false`, size 0) still leaves a local file - the
client created it before sending the request and does not delete it on
rejection.  Concretely: an empty local filesystem and the rejecting
response leave `f` present with empty content. -/
theorem get_rejected_leaves_created_file :
    (Client.get [] ['f'] [Tok.env (Envelope.retrievalResponse false "no such file" 0)]).result
        = Client.GetResult.rejected
    ∧ fsLookup (Client.get [] ['f']
        [Tok.env (Envelope.retrievalResponse false "no such file" 0)]).fs ['f'] = some [] :=
  ⟨by decide, by decide⟩

/-- C6 amended: the client `get` performs its exclusive create of the local
destination before the `RetrievalRequest` is even sent: when the local name
is free, a rejected retrieval still ends with the empty created file in
place; and when the local create fails, the exchange aborts having sent
nothing at all (so the create strictly precedes the request and the
response). -/
theorem get_creates_before_response (cfs : FS) (n : FileName) (m : String)
    (h : fsLookup cfs n = none) :
    ((Client.get cfs n [Tok.env (Envelope.retrievalResponse false m 0)]).result
        = Client.GetResult.rejected
      ∧ fsLookup (Client.get cfs n
          [Tok.env (Envelope.retrievalResponse false m 0)]).fs n = some []
      ∧ (Client.get cfs n [Tok.env (Envelope.retrievalResponse false m 0)]).sends
          = [Tok.env (Envelope.retrievalReq ⟨n⟩)])
    ∧ ∀ (cfs2 : FS) (c : Bytes) (input : List Tok), fsLookup cfs2 n = some c →
        Client.get cfs2 n input = ⟨Client.GetResult.createFailed, cfs2, []⟩ := by
  refine ⟨⟨?_, ?_, ?_⟩, ?_⟩
  · simp [Client.get, h, Client.receiveRetrievalResponse]
  · simp [Client.get, h, Client.receiveRetrievalResponse, fsLookup_fsInsert_self]
  · simp [Client.get, h, Client.receiveRetrievalResponse]
  · intro cfs2 c input h2
    simp [Client.get, h2]

theorem get_creates_before_response_witness :
    (fsLookup ([] : FS) ['f'] = none ∧ fsLookup [((['g'] : FileName), ([3] : Bytes))] ['g'] = some [3])
    ∧ fsLookup (Client.get [] ['f']
        [Tok.env (Envelope.retrievalResponse false "missing" 0)]).fs ['f'] = some []
    ∧ Client.get [(['g'], [3])] ['g'] [] = ⟨Client.GetResult.createFailed, [(['g'], [3])], []⟩ :=
  ⟨⟨by decide, by decide⟩,
    (get_creates_before_response [] ['f'] "missing" (by decide)).1.2.1,
    (get_creates_before_response [] ['g'] "missing" (by decide)).2 [(['g'], [3])] [3] [] (by decide)⟩

/-- C9 counterexample: against the claim that the client deletes the partial
local file when the payload read ends before the declared size arrived, a
`get` whose stream carries only 2 of the declared 5 bytes fails with a
truncated transfer but leaves the partial file (content `[1, 2]`) on disk -
the client's transfer-error path has no deletion. -/
theorem get_truncated_keeps_partial_file_cex :
    (Client.get [] ['f'] [Tok.env (Envelope.retrievalResponse true "Ready to send" 5),
        Tok.byte 1, Tok.byte 2]).result = Client.GetResult.truncated
    ∧ fsLookup (Client.get [] ['f'] [Tok.env (Envelope.retrievalResponse true "Ready to send" 5),
        Tok.byte 1, Tok.byte 2]).fs ['f'] = some [1, 2] :=
  ⟨by decide, by decide⟩

/-- C9 amended: when the payload read of a client retrieve ends before the
declared `size` bytes have arrived, the client reports a truncated transfer
but does not delete the partial local file: the destination remains, holding
exactly the bytes that did arrive (deletion happens only on checksum
mismatch). -/
theorem get_truncated_keeps_partial_file
    (cfs : FS) (n : FileName) (m : String) (size : Nat) (data : Bytes)
    (h : fsLookup cfs n = none) (hshort : data.length < size) :
    (Client.get cfs n (Tok.env (Envelope.retrievalResponse true m size)
        :: data.map Tok.byte)).result = Client.GetResult.truncated
    ∧ fsLookup (Client.get cfs n (Tok.env (Envelope.retrievalResponse true m size)
        :: data.map Tok.byte)).fs n = some data := by
  have hcopy := copyN_short size data hshort
  constructor <;>
    simp [Client.get, h, Client.receiveRetrievalResponse, hcopy, fsLookup_fsInsert_self]

theorem get_truncated_keeps_partial_file_witness :
    (fsLookup ([] : FS) ['g'] = none ∧ ([4, 5] : Bytes).length < 9)
    ∧ (Client.get [] ['g'] (Tok.env (Envelope.retrievalResponse true "Ready to send" 9)
        :: [4, 5].map Tok.byte)).result = Client.GetResult.truncated
    ∧ fsLookup (Client.get [] ['g'] (Tok.env (Envelope.retrievalResponse true "Ready to send" 9)
        :: [4, 5].map Tok.byte)).fs ['g'] = some [4, 5] :=
  ⟨⟨by decide, by decide⟩,
    get_truncated_keeps_partial_file [] ['g'] "Ready to send" 9 [4, 5] (by decide) (by decide)⟩

/-- The server_saloni store handler changes the filesystem at most at the
requested name: every other name keeps its previous lookup, in every branch
of the exchange. -/
lemma handleStorage_other_names
    (fs : FS) (request : StorageRequest) (input : List Tok) (m : FileName)
    (hm : m ≠ request.fileName) :
    fsLookup (ServerSaloni.handleStorage fs request input).fs m = fsLookup fs m := by
  unfold ServerSaloni.handleStorage
  cases hfs : fsLookup fs request.fileName with
  | some c => simp
  | none =>
      by_cases hcp : (copyN request.size input).2.2 = false
      · simp [hcp, fsLookup_fsErase_ne, fsLookup_fsInsert_ne, hm]
      · cases hrc : receive (copyN request.size input).2.1 with
        | none => simp [hcp, hrc, fsLookup_fsErase_ne, fsLookup_fsInsert_ne, hm]
        | some p =>
            obtain ⟨e, r2⟩ := p
            by_cases hv : VerifyChecksum (md5Digest (copyN request.size input).1) e.getChecksum
            · simp [hcp, hrc, hv, fsLookup_fsInsert_ne, hm]
            · simp [hcp, hrc, hv, fsLookup_fsErase_ne, fsLookup_fsInsert_ne, hm]

/-- C7 counterexample: against the claim that both server variants use the
supplied `fileName` exactly as given with no rewriting, the saloni_server
store handler, asked to store under `d/x`, stores under `x` instead: the
exchange succeeds, no file named `d/x` exists afterwards, and a file named
`x` does. -/
theorem store_name_rewritten :
    (SaloniServer.handleStorage [] ⟨['d', '/', 'x'], 0⟩
        [Tok.env (Envelope.checksum (md5Digest []))]).result = StoreResult.ok
    ∧ fsLookup (SaloniServer.handleStorage [] ⟨['d', '/', 'x'], 0⟩
        [Tok.env (Envelope.checksum (md5Digest []))]).fs ['d', '/', 'x'] = none
    ∧ fsLookup (SaloniServer.handleStorage [] ⟨['d', '/', 'x'], 0⟩
        [Tok.env (Envelope.checksum (md5Digest []))]).fs ['x'] = some [] :=
  ⟨by decide, by decide, by decide⟩

/-- C7 amended: the server_saloni variant uses the supplied name exactly as
given - its store handler touches the filesystem at no other name, and its
retrieve handler depends only on the lookup of the given name - while the
saloni_server variant's store handler first rewrites the name to its last
`/`-separated component and otherwise behaves as the server_saloni handler
on the rewritten request. -/
theorem server_filename_addressing
    (fs : FS) (n : FileName) (size : Nat) (input : List Tok) :
    (∀ m : FileName, m ≠ n →
        fsLookup (ServerSaloni.handleStorage fs ⟨n, size⟩ input).fs m = fsLookup fs m)
    ∧ (∀ fs2 : FS, fsLookup fs2 n = fsLookup fs n →
        ServerSaloni.handleRetrieval fs2 ⟨n⟩ = ServerSaloni.handleRetrieval fs ⟨n⟩)
    ∧ SaloniServer.handleStorage fs ⟨n, size⟩ input
        = ServerSaloni.handleStorage fs ⟨lastComponent n, size⟩ input := by
  refine ⟨?_, ?_, handleStorage_split_name fs ⟨n, size⟩ input⟩
  · intro m hm
    exact handleStorage_other_names fs ⟨n, size⟩ input m hm
  · intro fs2 h2
    unfold ServerSaloni.handleRetrieval
    rw [show fsLookup fs2 (⟨n⟩ : RetrievalRequest).fileName = fsLookup fs n from h2]

theorem server_filename_addressing_witness :
    (['b'] : FileName) ≠ ['a']
    ∧ fsLookup (ServerSaloni.handleStorage [] ⟨['a'], 0⟩
        [Tok.env (Envelope.checksum (md5Digest []))]).fs ['b'] = fsLookup ([] : FS) ['b']
    ∧ SaloniServer.handleStorage [] ⟨['d', '/', 'x'], 1⟩ [Tok.byte 5]
        = ServerSaloni.handleStorage [] ⟨lastComponent ['d', '/', 'x'], 1⟩ [Tok.byte 5] :=
  ⟨by decide,
    (server_filename_addressing [] ['a'] 0
        [Tok.env (Envelope.checksum (md5Digest []))]).1 ['b'] (by decide),
    (server_filename_addressing [] ['d', '/', 'x'] 1 [Tok.byte 5]).2.2⟩

/-- C8 counterexample: against the claim that an envelope of an unrecognized
variant is treated as "close this connection", the per-connection loop, fed
an unrecognized envelope followed by a retrieval request, goes on to serve
that retrieval (and only then closes at end of stream) - the unrecognized
envelope is logged and skipped, not a termination condition. -/
theorem handle_client_unrecognized_continues :
    (ServerSaloni.handleClient [(['a'], [7])]
        [Tok.env Envelope.other, Tok.env (Envelope.retrievalReq ⟨['a']⟩)]).2
      = [ServerSaloni.Event.unexpected,
         ServerSaloni.Event.retrieval RetrieveResult.ok,
         ServerSaloni.Event.closedEof] := by
  decide

/-- C8 amended: the per-connection handler loop terminates exactly when the
channel's receive fails (end of stream, or a malformed frame such as a raw
byte where an envelope was expected) or an empty envelope arrives; an
envelope of an unrecognized variant does not terminate it - the loop records
it and continues on the remaining stream with the filesystem unchanged. -/
theorem handle_client_termination (fs : FS) (rest : List Tok) (b : Nat) :
    ServerSaloni.handleClient fs [] = (fs, [ServerSaloni.Event.closedEof])
    ∧ ServerSaloni.handleClient fs (Tok.byte b :: rest)
        = (fs, [ServerSaloni.Event.closedMalformed])
    ∧ ServerSaloni.handleClient fs (Tok.env Envelope.empty :: rest)
        = (fs, [ServerSaloni.Event.closedEmpty])
    ∧ (ServerSaloni.handleClient fs (Tok.env Envelope.other :: rest)).1
        = (ServerSaloni.handleClient fs rest).1
    ∧ (ServerSaloni.handleClient fs (Tok.env Envelope.other :: rest)).2
        = ServerSaloni.Event.unexpected :: (ServerSaloni.handleClient fs rest).2 :=
  ⟨rfl, rfl, rfl, rfl, rfl⟩

/-- C10: on a storage request whose file name contains no `/`, the two
server implementations' store handlers are behaviorally equivalent: same
resulting filesystem, same unread remainder of the stream, same sequence of
sent responses, same outcome - for every filesystem and every incoming
stream. -/
theorem store_handlers_equiv_no_slash
    (fs : FS) (request : StorageRequest) (input : List Tok)
    (h : '/' ∉ request.fileName) :
    SaloniServer.handleStorage fs request input
      = ServerSaloni.handleStorage fs request input := by
  rw [handleStorage_split_name, lastComponent_of_no_slash request.fileName h]

theorem store_handlers_equiv_no_slash_witness :
    '/' ∉ (['f', '.', 't', 'x', 't'] : FileName)
    ∧ SaloniServer.handleStorage [] ⟨['f', '.', 't', 'x', 't'], 2⟩
        [Tok.byte 9, Tok.byte 8, Tok.env (Envelope.checksum (md5Digest [9, 8]))]
      = ServerSaloni.handleStorage [] ⟨['f', '.', 't', 'x', 't'], 2⟩
        [Tok.byte 9, Tok.byte 8, Tok.env (Envelope.checksum (md5Digest [9, 8]))] :=
  ⟨by decide,
    store_handlers_equiv_no_slash [] ⟨['f', '.', 't', 'x', 't'], 2⟩
      [Tok.byte 9, Tok.byte 8, Tok.env (Envelope.checksum (md5Digest [9, 8]))] (by decide)⟩
